import Mathlib

/-!
Shallow embedding of the schedule evaluator, schedule store and feed actuator
logic of `pet-feeder.py` (class `PetFeederApp`), together with proofs of the
specification's claims about them.

Conventions of the embedding:
* Python strings are `String`, Python lists are `List`.
* `datetime.now()` is a `Time` value (hour/minute); `strftime("%H:%M")` is
  `strftimeHM`.
* `self.last_feed_time` (initially `None`, later an `"HH:MM"` string) is an
  `Option String`, `none` for `None`.
* The `schedule.json` backing file is a `FileState`; the `json` module's
  parse result is a `JValue` (`load_schedule` only distinguishes "parses to a
  list" from everything else, and `json.load (json.dump xs) = xs` for lists
  of strings).
* Awaited SDK calls that may raise are modelled by boolean failure flags and
  the resulting command traces.
-/

namespace PetFeeder

/-- Source line 30: `DEFAULT_SCHEDULE = ["06:00", "12:00", "16:02"]`. -/
def DEFAULT_SCHEDULE : List String := ["06:00", "12:00", "16:02"]

/-- A wall-clock time of day at minute granularity, the part of
`datetime.now()` that `check_schedule` observes. -/
structure Time where
  hour : Nat
  minute : Nat
deriving DecidableEq, Repr

/-- Two-digit zero-padded decimal rendering, as `strftime` produces for
`%H` and `%M`. -/
def pad2 (n : Nat) : String :=
  if n < 10 then "0" ++ toString n else toString n

/-- `now.strftime("%H:%M")` (source line 163). -/
def strftimeHM (t : Time) : String :=
  pad2 t.hour ++ ":" ++ pad2 t.minute

/-- ASCII decimal digit test, the `\d` class of Python's `_strptime` regex on
the inputs considered here. -/
def isAsciiDigit (c : Char) : Bool :=
  decide ('0' ≤ c) && decide (c ≤ '9')

/-- Numeric value of an ASCII digit character. -/
def digitVal (c : Char) : Nat :=
  c.toNat - '0'.toNat

/-- One- or two-character hour field accepted by `strptime`'s `%H`
(regex `2[0-3]|[0-1]\d|\d`): a single digit, or two digits with value at most
23. -/
def strptimeHourOk : List Char → Bool
  | [c] => isAsciiDigit c
  | [c1, c2] => isAsciiDigit c1 && isAsciiDigit c2 &&
      decide (digitVal c1 * 10 + digitVal c2 ≤ 23)
  | _ => false

/-- One- or two-character minute field accepted by `strptime`'s `%M`
(regex `[0-5]\d|\d`): a single digit, or two digits with value at most 59. -/
def strptimeMinuteOk : List Char → Bool
  | [c] => isAsciiDigit c
  | [c1, c2] => isAsciiDigit c1 && isAsciiDigit c2 &&
      decide (digitVal c1 * 10 + digitVal c2 ≤ 59)
  | _ => false

/-- Success of `datetime.strptime(s, "%H:%M")` (source line 140). Python's
`_strptime` compiles `"%H:%M"` to the anchored whole-string regex
`(2[0-3]|[0-1]\d|\d):([0-5]\d|\d)`; since neither field can contain `:`, the
accepted strings are exactly a valid hour field, one colon, and a valid minute
field, i.e. strings of length 3, 4, or 5 of the shapes enumerated here. Note
this also accepts non-zero-padded fields such as `"6:00"` or `"06:5"`. -/
def strptimeHMOk (s : String) : Bool :=
  match s.data with
  | [h, c, m] => c == ':' && strptimeHourOk [h] && strptimeMinuteOk [m]
  | [a, b, c, d] =>
      (b == ':' && strptimeHourOk [a] && strptimeMinuteOk [c, d]) ||
      (c == ':' && strptimeHourOk [a, b] && strptimeMinuteOk [d])
  | [h1, h2, c, m1, m2] =>
      c == ':' && strptimeHourOk [h1, h2] && strptimeMinuteOk [m1, m2]
  | _ => false

/-- Modelled from the spec's words, for comparison with the code's acceptance
condition `strptimeHMOk`: strict `HH:MM` 24-hour format — two-digit
zero-padded hour 00-23, a colon, two-digit minute 00-59. -/
def specStrictHM (s : String) : Bool :=
  match s.data with
  | [h1, h2, c, m1, m2] =>
      c == ':' && isAsciiDigit h1 && isAsciiDigit h2 &&
      isAsciiDigit m1 && isAsciiDigit m2 &&
      decide (digitVal h1 * 10 + digitVal h2 ≤ 23) &&
      decide (digitVal m1 * 10 + digitVal m2 ≤ 59)
  | _ => false

/-- The lexicographic code-point order Python uses to compare strings, taken
on the character list (`String.le_iff_toList_le` shows it agrees with the
library order on `String`). -/
def pyStrLe (a b : String) : Prop :=
  a.data ≤ b.data

instance : DecidableRel pyStrLe := fun a b =>
  inferInstanceAs (Decidable (a.data ≤ b.data))

/-- Python `list.sort()` on strings orders lexicographically by code point and
is stable, so its output is the unique sorted permutation of the input (equal
strings are indistinguishable); realised here by insertion sort. -/
def pySort (l : List String) : List String :=
  l.insertionSort pyStrLe

/-- `PetFeederApp.add_time`, source lines 136-148, given the string entered in
the dialog (the dialog's own ok flag true). Returns the new schedule and
whether the time was appended (and the list re-sorted and persisted): the
empty string is skipped by `if ok and time:`, a string `strptime` rejects
raises `ValueError` (caught, warning shown, schedule untouched), a duplicate
is silently skipped. -/
def add_time (schedule : List String) (time : String) : List String × Bool :=
  if time = "" then (schedule, false)
  else if strptimeHMOk time = false then (schedule, false)
  else if time ∈ schedule then (schedule, false)
  else (pySort (schedule ++ [time]), true)

/-- `PetFeederApp.remove_time`, source lines 150-155: `selected` is the current
row of the list widget (-1 when nothing is selected, which skips the pop).
`list.pop(i)` raises `IndexError` for an out-of-range index, modelled as
`none`. -/
def remove_time (schedule : List String) (selected : Int) : Option (List String) :=
  if 0 ≤ selected then
    if selected.toNat < schedule.length then
      some (schedule.eraseIdx selected.toNat)
    else none
  else some schedule

/-- A parsed JSON document, as far as `load_schedule` inspects it: either a
list of schedule strings, or any other JSON value (for which
`isinstance(data, list)` is false). -/
inductive JValue
  | jarr (xs : List String)
  | jother
deriving DecidableEq

/-- State of the `schedule.json` backing file. `present none` is a file that
exists but whose read or `json.load` raises (absent permissions, empty or
corrupt content); `present (some v)` is a file whose content parses to `v`. -/
inductive FileState
  | absent
  | present (parsed : Option JValue)
deriving DecidableEq

/-- `PetFeederApp.load_schedule`, source lines 57-66: return the parsed file
content when the file exists and parses to a list, otherwise fall back to a
copy of `DEFAULT_SCHEDULE`; every exception is caught and logged. -/
def load_schedule (fs : FileState) : List String :=
  match fs with
  | .absent => DEFAULT_SCHEDULE
  | .present none => DEFAULT_SCHEDULE
  | .present (some (JValue.jarr xs)) => xs
  | .present (some JValue.jother) => DEFAULT_SCHEDULE

/-- `PetFeederApp.save_schedule`, source lines 68-73, in the case the write
succeeds: `json.dump` stores the schedule as a JSON array of its strings. -/
def save_schedule (schedule : List String) : FileState :=
  FileState.present (some (JValue.jarr schedule))

/-- The schedule-evaluation core of `PetFeederApp.check_schedule`, source
lines 162-172 (the spec's `tick`): fire iff the current `HH:MM` string is in
the schedule and differs from `last_feed_time`; on fire the marker is set to
that string (line 169), otherwise it is left alone. Returns
`(shouldFeed, newMarker)`. -/
def tick (schedule : List String) (now : Time) (marker : Option String) :
    Bool × Option String :=
  let current_time := strftimeHM now
  if current_time ∈ schedule then
    if marker ≠ some current_time then (true, some current_time)
    else (false, marker)
  else (false, marker)

/-- `PetFeederApp.check_schedule`, source lines 157-172, with its guard on
`self.connected` and `self.stepper` (lines 159-160). -/
def check_schedule (connected stepperPresent : Bool) (schedule : List String)
    (now : Time) (marker : Option String) : Bool × Option String :=
  if !connected || !stepperPresent then (false, marker)
  else tick schedule now marker

/-- A command awaited on the stepper `Motor`. -/
inductive MotorCmd
  | goFor (rpm : Int) (revolutions : Int)
  | stop
deriving DecidableEq, BEq

/-- Behaviour of the remote stepper during one feed attempt: whether each
awaited SDK call raises. -/
structure MotorBehavior where
  goForFails : Bool
  stopFails : Bool
deriving DecidableEq

/-- The try/except body shared verbatim by `on_feed` (source lines 198-207)
and `scheduled_feed` (lines 181-189):
`await self.stepper.go_for(rpm=500, revolutions=-3)` then
`await self.stepper.stop()`, both inside the `try`; an exception raised by
either call jumps straight to the `except` handler, which logs and reports
failure. Returns the commands issued, in order, and whether the feed
completed. -/
def feedBody (m : MotorBehavior) : List MotorCmd × Bool :=
  if m.goForFails then ([MotorCmd.goFor 500 (-3)], false)
  else if m.stopFails then ([MotorCmd.goFor 500 (-3), MotorCmd.stop], false)
  else ([MotorCmd.goFor 500 (-3), MotorCmd.stop], true)

/-- `PetFeederApp.on_feed`, source lines 191-210: warn and return when not
connected, otherwise run the feed body; the `finally` clause only re-enables
the feed button and issues no motor command. -/
def on_feed (connected stepperPresent : Bool) (m : MotorBehavior) :
    List MotorCmd × Bool :=
  if !connected || !stepperPresent then ([], false)
  else feedBody m

/-- `PetFeederApp.scheduled_feed`, source lines 174-189: silently return when
not connected, otherwise run the feed body. It never writes
`self.last_feed_time`. -/
def scheduled_feed (connected stepperPresent : Bool) (m : MotorBehavior) :
    List MotorCmd × Bool :=
  if !connected || !stepperPresent then ([], false)
  else feedBody m

/-- Observable actions of one firing `check_schedule` invocation, in program
order: the assignment `self.last_feed_time = current_time` (line 169) comes
before `asyncio.create_task(self.scheduled_feed())` (line 172). -/
inductive SchedEvent
  | markerSet (t : String)
  | feedTask
deriving DecidableEq

/-- The event trace of one `check_schedule` evaluation: on fire, first the
marker assignment, then the creation of the feed task; otherwise nothing. -/
def check_schedule_events (schedule : List String) (now : Time)
    (marker : Option String) : List SchedEvent :=
  let current_time := strftimeHM now
  if current_time ∈ schedule ∧ marker ≠ some current_time then
    [SchedEvent.markerSet current_time, SchedEvent.feedTask]
  else []

/-- Repeated 30-second `check_schedule` invocations within a single minute
(`now` fixed). Each entry of `outcomes` is whether the scheduled feed
triggered at that tick (if any) succeeded; since `scheduled_feed` never
writes `last_feed_time`, the outcome cannot influence the marker. Returns the
final marker and the number of feeds triggered. -/
def runTicks (schedule : List String) (now : Time) :
    Option String → List Bool → Option String × Nat
  | marker, [] => (marker, 0)
  | marker, _outcome :: rest =>
    let r := tick schedule now marker
    let rec_ := runTicks schedule now r.2 rest
    (rec_.1, (if r.1 then 1 else 0) + rec_.2)

/-! ### Helper lemmas (shared; not claim theorems) -/

/-- The comparison used by `pySort` agrees with the library order on
`String`. -/
theorem pyStrLe_iff (a b : String) : pyStrLe a b ↔ a ≤ b := by
  rw [String.le_iff_toList_le]
  exact Iff.rfl

instance : IsTotal String pyStrLe :=
  ⟨fun a b => le_total a.data b.data⟩

instance : IsTrans String pyStrLe :=
  ⟨fun _ _ _ hab hbc => le_trans hab hbc⟩

/-- A list sorted for the decidable data order is sorted for the library
order on `String`. -/
theorem sorted_le_of_data {l : List String} (h : l.Sorted pyStrLe) :
    l.Sorted (· ≤ ·) :=
  h.imp fun hab => (pyStrLe_iff _ _).mp hab

/-- The output of `pySort` is sorted for the library order on `String`. -/
theorem pySort_sorted (l : List String) : (pySort l).Sorted (· ≤ ·) :=
  sorted_le_of_data (List.sorted_insertionSort pyStrLe l)

/-- The output of `pySort` is a permutation of its input. -/
theorem pySort_perm (l : List String) : (pySort l).Perm l :=
  List.perm_insertionSort pyStrLe l

/-- Closed form of the tick evaluation. -/
theorem tick_spec (schedule : List String) (now : Time) (marker : Option String) :
    tick schedule now marker =
      if strftimeHM now ∈ schedule ∧ marker ≠ some (strftimeHM now)
      then (true, some (strftimeHM now)) else (false, marker) := by
  unfold tick
  by_cases h1 : strftimeHM now ∈ schedule
  · by_cases h2 : marker ≠ some (strftimeHM now) <;> simp [h1, h2]
  · simp [h1]

/-- Every strict `HH:MM` string is accepted by the `strptime` parse. -/
theorem strptimeOk_of_strict (s : String) (h : specStrictHM s = true) :
    strptimeHMOk s = true := by
  unfold specStrictHM at h
  unfold strptimeHMOk strptimeHourOk strptimeMinuteOk
  revert h
  rcases s.data with _ | ⟨a, _ | ⟨b, _ | ⟨c, _ | ⟨d, _ | ⟨e, _ | ⟨f, rest⟩⟩⟩⟩⟩⟩ <;>
    intro h <;> simp_all [Bool.and_eq_true]

/-- Once the marker holds the current minute, further ticks in that minute
fire nothing and keep the marker. -/
theorem runTicks_saturated (schedule : List String) (now : Time)
    (outcomes : List Bool) :
    runTicks schedule now (some (strftimeHM now)) outcomes =
      (some (strftimeHM now), 0) := by
  induction outcomes with
  | nil => rfl
  | cons o rest ih =>
    have ht : tick schedule now (some (strftimeHM now)) =
        (false, some (strftimeHM now)) := by
      rw [tick_spec]; simp
    simp [runTicks, ht, ih]

/-! ### Claim theorems -/

/-- C1: for every schedule, current time and marker, the tick fires iff the
current time formatted `HH:MM` is a member of the schedule and differs from
the marker; on fire the new marker is that `HH:MM` string, otherwise the
marker is unchanged; and for the schedule `["06:00", "12:00"]` and the empty
(initial) marker, ticking at 06:00 fires and sets the marker to `"06:00"`,
ticking again at 06:00 does not fire, ticking at 06:01 does not fire, and
ticking at 12:00 fires and sets the marker to `"12:00"`. -/
theorem tick_fires_iff :
    (∀ (schedule : List String) (now : Time) (marker : Option String),
      ((tick schedule now marker).1 = true ↔
        strftimeHM now ∈ schedule ∧ marker ≠ some (strftimeHM now)) ∧
      ((tick schedule now marker).1 = true →
        (tick schedule now marker).2 = some (strftimeHM now)) ∧
      ((tick schedule now marker).1 = false →
        (tick schedule now marker).2 = marker)) ∧
    tick ["06:00", "12:00"] ⟨6, 0⟩ none = (true, some "06:00") ∧
    tick ["06:00", "12:00"] ⟨6, 0⟩ (some "06:00") = (false, some "06:00") ∧
    tick ["06:00", "12:00"] ⟨6, 1⟩ (some "06:00") = (false, some "06:00") ∧
    tick ["06:00", "12:00"] ⟨12, 0⟩ (some "06:00") = (true, some "12:00") := by
  refine ⟨fun schedule now marker => ?_, by decide, by decide, by decide, by decide⟩
  rw [tick_spec]
  by_cases hc : strftimeHM now ∈ schedule ∧ marker ≠ some (strftimeHM now) <;>
    simp [hc]

/-- Witness for C1 at the schedule `["06:00"]`, time 06:00 and empty
marker. -/
theorem tick_fires_iff_witness :
    (tick ["06:00"] ⟨6, 0⟩ none).2 = some (strftimeHM ⟨6, 0⟩) :=
  (tick_fires_iff.1 ["06:00"] ⟨6, 0⟩ none).2.1 (by decide)

/-- C2 counterexample: when `go_for` raises, the shared feed body jumps to the
`except` handler without ever issuing `stop` — the stop count of the issued
command trace is 0, not 1, for the manual feed and the scheduled feed alike,
although the run command was issued. -/
theorem feed_stop_skipped_on_goFor_failure :
    (on_feed true true ⟨true, false⟩).1.count MotorCmd.stop = 0 ∧
    (scheduled_feed true true ⟨true, false⟩).1.count MotorCmd.stop = 0 ∧
    (on_feed true true ⟨true, false⟩).1.count (MotorCmd.goFor 500 (-3)) = 1 := by
  decide

/-- C2 amended: in both the manual and the scheduled feed the stop command is
issued exactly once when the run step succeeds and never when the run step
raises; the run command itself is issued exactly once; the two handlers issue
identical command traces. -/
theorem feed_stop_iff_goFor_succeeds (m : MotorBehavior) :
    (feedBody m).1.count MotorCmd.stop = (if m.goForFails then 0 else 1) ∧
    (feedBody m).1.count (MotorCmd.goFor 500 (-3)) = 1 ∧
    on_feed true true m = feedBody m ∧
    scheduled_feed true true m = feedBody m := by
  cases m with
  | mk g s => cases g <;> cases s <;> decide

/-- C3 counterexample: ticking at the non-matching minute 06:01 leaves the
marker at `some "06:00"` instead of clearing it, and the subsequent tick at
the matching minute 06:00 — a previously fired time — does not fire again. -/
theorem marker_kept_on_nonmatching_minute :
    (tick ["06:00"] ⟨6, 1⟩ (some "06:00")).2 = some "06:00" ∧
    (tick ["06:00"] ⟨6, 1⟩ (some "06:00")).2 ≠ none ∧
    (tick ["06:00"] ⟨6, 0⟩ (tick ["06:00"] ⟨6, 1⟩ (some "06:00")).2).1 = false := by
  decide

/-- C3 amended: a tick at a minute whose `HH:MM` string is not in the schedule
does not fire and leaves the marker unchanged (it is never cleared), so a
later tick at a matching minute fires iff its time string differs from that
retained marker — in particular a matching minute equal to the previously
fired time string does not fire again. -/
theorem tick_nonmatching_keeps_marker (schedule : List String) (now later : Time)
    (marker : Option String) (hnm : strftimeHM now ∉ schedule) :
    tick schedule now marker = (false, marker) ∧
    (strftimeHM later ∈ schedule →
      ((tick schedule later (tick schedule now marker).2).1 = true ↔
        marker ≠ some (strftimeHM later))) := by
  have h1 : tick schedule now marker = (false, marker) := by
    rw [tick_spec]; simp [hnm]
  refine ⟨h1, fun hmem => ?_⟩
  rw [h1]
  rw [tick_spec]
  by_cases hne : marker ≠ some (strftimeHM later) <;> simp [hmem, hne]

/-- Witness for C3 amended at the schedule `["06:00"]`: the non-matching tick
at 06:01 keeps the marker, and the later matching tick at 06:00 does not fire
since the marker still holds `"06:00"`. -/
theorem tick_nonmatching_keeps_marker_witness :
    tick ["06:00"] ⟨6, 1⟩ (some "06:00") = (false, some "06:00") ∧
    ((tick ["06:00"] ⟨6, 0⟩ (tick ["06:00"] ⟨6, 1⟩ (some "06:00")).2).1 = true ↔
      some "06:00" ≠ some (strftimeHM ⟨6, 0⟩)) :=
  ⟨(tick_nonmatching_keeps_marker ["06:00"] ⟨6, 1⟩ ⟨6, 0⟩ (some "06:00")
      (by decide)).1,
   (tick_nonmatching_keeps_marker ["06:00"] ⟨6, 1⟩ ⟨6, 0⟩ (some "06:00")
      (by decide)).2 (by decide)⟩

/-- C6: load never raises (it is a total function of the file state), returns
the fixed default three-entry schedule for an absent file, a file whose read
or parse fails (empty or corrupt content), and a file holding a non-list JSON
value; and it returns the file's stored contents exactly when the file exists
and parses as a list. -/
theorem load_schedule_default_fallback :
    DEFAULT_SCHEDULE.length = 3 ∧
    load_schedule FileState.absent = DEFAULT_SCHEDULE ∧
    load_schedule (FileState.present none) = DEFAULT_SCHEDULE ∧
    load_schedule (FileState.present (some JValue.jother)) = DEFAULT_SCHEDULE ∧
    (∀ xs, load_schedule (FileState.present (some (JValue.jarr xs))) = xs) ∧
    (∀ fs, load_schedule fs = DEFAULT_SCHEDULE ∨
      ∃ xs, fs = FileState.present (some (JValue.jarr xs)) ∧
        load_schedule fs = xs) := by
  refine ⟨rfl, rfl, rfl, rfl, fun xs => rfl, fun fs => ?_⟩
  cases fs with
  | absent => exact Or.inl rfl
  | present p =>
    cases p with
    | none => exact Or.inl rfl
    | some v =>
      cases v with
      | jarr xs => exact Or.inr ⟨xs, rfl, rfl⟩
      | jother => exact Or.inl rfl

/-- C7: saving a schedule and loading it back returns an equal schedule,
provided the file write succeeds. -/
theorem save_load_roundtrip (schedule : List String) :
    load_schedule (save_schedule schedule) = schedule := rfl

/-- C9: removing at a valid index `0 ≤ i < size` succeeds, and the result is
the original schedule with exactly the element at position `i` removed — the
elements before and after it in their original relative order — so the size
drops by exactly one. -/
theorem remove_time_valid (schedule : List String) (i : Nat)
    (h : i < schedule.length) :
    remove_time schedule (Int.ofNat i) =
      some (schedule.take i ++ schedule.drop (i + 1)) ∧
    (schedule.take i ++ schedule.drop (i + 1)).length = schedule.length - 1 := by
  constructor
  · unfold remove_time
    rw [if_pos (show (0 : Int) ≤ Int.ofNat i from Int.ofNat_nonneg i)]
    have hi : (Int.ofNat i).toNat = i := Int.toNat_ofNat i
    rw [hi, if_pos h, List.eraseIdx_eq_take_drop_succ]
  · rw [← List.eraseIdx_eq_take_drop_succ]
    exact List.length_eraseIdx_of_lt h

/-- Witness for C9: removing index 0 from a two-entry schedule. -/
theorem remove_time_valid_witness :
    remove_time ["06:00", "12:00"] (Int.ofNat 0) = some ["12:00"] :=
  (remove_time_valid ["06:00", "12:00"] 0 (by decide)).1

/-- C4 counterexample: `"6:00"` is not in strict two-digit zero-padded
`HH:MM` format, yet `add_time` accepts it and changes the schedule, because
`strptime("%H:%M")` also accepts one-digit fields. -/
theorem add_time_accepts_nonstrict :
    specStrictHM "6:00" = false ∧
    add_time [] "6:00" = (["6:00"], true) := by
  decide

/-- C4 amended: `add_time` leaves the schedule unchanged and reports not-ok
exactly for strings rejected by the `strptime("%H:%M")` parse — which, unlike
the strict format, also accepts non-zero-padded one-digit hours and minutes —
or already present in the schedule; every strict `HH:MM` string passes that
parse. -/
theorem add_time_reject_iff (schedule : List String) (time : String) :
    ((add_time schedule time).2 = false ↔
      (strptimeHMOk time = false ∨ time ∈ schedule)) ∧
    ((add_time schedule time).2 = false → (add_time schedule time).1 = schedule) ∧
    (specStrictHM time = true → strptimeHMOk time = true) := by
  refine ⟨?_, ?_, strptimeOk_of_strict time⟩
  · unfold add_time
    by_cases h0 : time = ""
    · subst h0
      simp [show strptimeHMOk "" = false from rfl]
    · by_cases hp : strptimeHMOk time = false
      · simp [h0, hp]
      · have hpt : strptimeHMOk time = true := by
          revert hp; cases strptimeHMOk time <;> simp
        by_cases hmem : time ∈ schedule <;> simp [h0, hp, hmem, hpt]
  · unfold add_time
    by_cases h0 : time = ""
    · simp [h0]
    · by_cases hp : strptimeHMOk time = false
      · simp [h0, hp]
      · by_cases hmem : time ∈ schedule <;> simp [h0, hp, hmem]

/-- Witness for C4 amended: a duplicate is a reported no-op, and the strict
string `"12:00"` passes the code's parse. -/
theorem add_time_reject_iff_witness :
    (add_time ["06:00"] "06:00").1 = ["06:00"] ∧
    strptimeHMOk "12:00" = true :=
  ⟨(add_time_reject_iff ["06:00"] "06:00").2.1 (by decide),
   (add_time_reject_iff [] "12:00").2.2 (by decide)⟩

/-- The schedule invariant of the spec's data model: entries sorted
lexicographically, no duplicates. -/
def schedInvariant (l : List String) : Prop :=
  l.Sorted (· ≤ ·) ∧ l.Nodup

/-- C5 counterexample: load returns the stored list verbatim, so for a backing
file holding `["12:00", "06:00", "06:00"]` the loaded schedule is neither
sorted nor duplicate-free. -/
theorem load_schedule_violates_invariant :
    load_schedule (FileState.present (some
      (JValue.jarr ["12:00", "06:00", "06:00"]))) = ["12:00", "06:00", "06:00"] ∧
    ¬ schedInvariant ["12:00", "06:00", "06:00"] := by
  refine ⟨rfl, fun hinv => ?_⟩
  exact absurd hinv.2 (by decide)

/-- C5 amended: the invariant (sorted, duplicate-free) holds of the default
schedule and is preserved by `add_time` and by every successful
`remove_time`; but `load_schedule` returns the stored list verbatim, so after
a load the invariant holds exactly when the backing file's stored list
already satisfied it. -/
theorem schedule_invariant_lifecycle :
    schedInvariant DEFAULT_SCHEDULE ∧
    (∀ l t, schedInvariant l → schedInvariant (add_time l t).1) ∧
    (∀ l (i : Int) l2, schedInvariant l → remove_time l i = some l2 →
      schedInvariant l2) ∧
    (∀ xs, load_schedule (FileState.present (some (JValue.jarr xs))) = xs) := by
  refine ⟨⟨sorted_le_of_data (by decide), by decide⟩, ?_, ?_, fun xs => rfl⟩
  · intro l t hinv
    unfold add_time
    by_cases h0 : t = ""
    · simpa [h0] using hinv
    · by_cases hp : strptimeHMOk t = false
      · simpa [h0, hp] using hinv
      · by_cases hmem : t ∈ l
        · simpa [h0, hp, hmem] using hinv
        · rw [if_neg h0, if_neg hp, if_neg hmem]
          refine ⟨pySort_sorted _, ?_⟩
          rw [(pySort_perm (l ++ [t])).nodup_iff]
          simp [List.nodup_append, hinv.2, hmem]
  · intro l i l2 hinv hrem
    unfold remove_time at hrem
    by_cases hneg : (0 : Int) ≤ i
    · rw [if_pos hneg] at hrem
      by_cases hlt : i.toNat < l.length
      · rw [if_pos hlt] at hrem
        obtain rfl : l.eraseIdx i.toNat = l2 := Option.some.inj hrem
        exact ⟨hinv.1.sublist (List.eraseIdx_sublist l i.toNat),
          hinv.2.sublist (List.eraseIdx_sublist l i.toNat)⟩
      · rw [if_neg hlt] at hrem
        exact absurd hrem (by simp)
    · rw [if_neg hneg] at hrem
      obtain rfl : l = l2 := Option.some.inj hrem
      exact hinv

/-- Witness for C5 amended: adding `"12:00"` to the singleton schedule
`["06:00"]` and removing index 0 from it both preserve the invariant. -/
theorem schedule_invariant_lifecycle_witness :
    schedInvariant (add_time ["06:00"] "12:00").1 ∧
    schedInvariant ["12:00"] :=
  ⟨schedule_invariant_lifecycle.2.1 ["06:00"] "12:00"
      ⟨List.sorted_singleton "06:00", by decide⟩,
   schedule_invariant_lifecycle.2.2.1 ["06:00", "12:00"] 0 ["12:00"]
      ⟨sorted_le_of_data (by decide), by decide⟩ rfl⟩

/-- C8: adding a well-formed (strict `HH:MM`) string not already present to a
duplicate-free schedule reports ok, grows the schedule by exactly one entry,
and the result is sorted, duplicate-free, and holds the new string together
with all previous entries. -/
theorem add_time_wellformed_adds (schedule : List String) (time : String)
    (hfmt : specStrictHM time = true) (hmem : time ∉ schedule)
    (hnd : schedule.Nodup) :
    (add_time schedule time).2 = true ∧
    (add_time schedule time).1.length = schedule.length + 1 ∧
    (add_time schedule time).1.Sorted (· ≤ ·) ∧
    (add_time schedule time).1.Nodup ∧
    (add_time schedule time).1.Perm (time :: schedule) := by
  have hne : time ≠ "" := by
    intro h
    rw [h] at hfmt
    exact absurd hfmt (by decide)
  have hok : strptimeHMOk time = true := strptimeOk_of_strict time hfmt
  have heq : add_time schedule time = (pySort (schedule ++ [time]), true) := by
    unfold add_time
    rw [if_neg hne, if_neg (by simp [hok]), if_neg hmem]
  rw [heq]
  refine ⟨rfl, ?_, pySort_sorted _, ?_, ?_⟩
  · rw [(pySort_perm (schedule ++ [time])).length_eq]
    simp
  · rw [(pySort_perm (schedule ++ [time])).nodup_iff]
    simp [List.nodup_append, hnd, hmem]
  · exact (pySort_perm (schedule ++ [time])).trans
      (List.perm_append_singleton time schedule)

/-- Witness for C8: adding `"12:00"` to the singleton schedule `["06:00"]`. -/
theorem add_time_wellformed_adds_witness :
    (add_time ["06:00"] "12:00").2 = true ∧
    (add_time ["06:00"] "12:00").1.length = 2 ∧
    (add_time ["06:00"] "12:00").1.Sorted (· ≤ ·) ∧
    (add_time ["06:00"] "12:00").1.Nodup ∧
    (add_time ["06:00"] "12:00").1.Perm ["12:00", "06:00"] :=
  add_time_wellformed_adds ["06:00"] "12:00" (by decide) (by decide) (by decide)

/-- C10: within `check_schedule` the marker assignment strictly precedes the
creation of the feed task; repeated check invocations inside one minute do
not depend on whether the triggered feed succeeds or fails (`scheduled_feed`
never writes the marker); and any number of such invocations triggers at most
one scheduled feed. -/
theorem check_schedule_at_most_once :
    (∀ (schedule : List String) (now : Time) (marker : Option String),
      (tick schedule now marker).1 = true →
      check_schedule_events schedule now marker =
        [SchedEvent.markerSet (strftimeHM now), SchedEvent.feedTask]) ∧
    (∀ (schedule : List String) (now : Time) (marker : Option String)
      (outcomes1 outcomes2 : List Bool), outcomes1.length = outcomes2.length →
      runTicks schedule now marker outcomes1 =
        runTicks schedule now marker outcomes2) ∧
    (∀ (schedule : List String) (now : Time) (marker : Option String)
      (outcomes : List Bool), (runTicks schedule now marker outcomes).2 ≤ 1) := by
  refine ⟨?_, ?_, ?_⟩
  · intro schedule now marker hfire
    rw [tick_spec] at hfire
    by_cases hc : strftimeHM now ∈ schedule ∧ marker ≠ some (strftimeHM now)
    · unfold check_schedule_events
      rw [if_pos hc]
    · rw [if_neg hc] at hfire
      exact absurd hfire (by simp)
  · intro schedule now marker outcomes1
    induction outcomes1 generalizing marker with
    | nil =>
      intro outcomes2 hlen
      obtain rfl : outcomes2 = [] := List.eq_nil_of_length_eq_zero hlen.symm
      rfl
    | cons o rest ih =>
      intro outcomes2 hlen
      cases outcomes2 with
      | nil => exact absurd hlen (by simp)
      | cons o2 rest2 =>
        simp only [runTicks]
        rw [ih _ rest2 (by simpa using hlen)]
  · intro schedule now marker outcomes
    induction outcomes generalizing marker with
    | nil => exact Nat.zero_le 1
    | cons o rest ih =>
      simp only [runTicks]
      rw [tick_spec]
      by_cases hc : strftimeHM now ∈ schedule ∧ marker ≠ some (strftimeHM now)
      · rw [if_pos hc]
        simp [runTicks_saturated]
      · rw [if_neg hc]
        simpa using ih marker

/-- Witness for C10: one minute of the schedule `["06:00"]` starting from the
empty marker — the firing tick emits the marker assignment before the feed
task, tick sequences of equal length agree regardless of feed outcomes, and
two ticks in the minute trigger exactly at most one feed. -/
theorem check_schedule_at_most_once_witness :
    check_schedule_events ["06:00"] ⟨6, 0⟩ none =
      [SchedEvent.markerSet (strftimeHM ⟨6, 0⟩), SchedEvent.feedTask] ∧
    runTicks ["06:00"] ⟨6, 0⟩ none [true] = runTicks ["06:00"] ⟨6, 0⟩ none [false] ∧
    (runTicks ["06:00"] ⟨6, 0⟩ none [true, false]).2 ≤ 1 :=
  ⟨check_schedule_at_most_once.1 ["06:00"] ⟨6, 0⟩ none (by decide),
   check_schedule_at_most_once.2.1 ["06:00"] ⟨6, 0⟩ none [true] [false] rfl,
   check_schedule_at_most_once.2.2 ["06:00"] ⟨6, 0⟩ none [true, false]⟩

end PetFeeder
